import Mathlib

/-!
Shallow embedding of the buffered-stream engine of relibc's stdio
(`src/header/stdio/mod.rs`).  The `FILE` state machine (read buffer and
cursors, one-byte pushback slot, latched status flags, optional child pid)
is translated field by field; the out-of-scope platform layer (raw reads,
`lseek`, `waitpid`) and the external `LineWriter` are modelled by scripts
of outcomes carried in the state, as the spec treats them as opaque
collaborators.  Machine integers that matter (`c_int` arguments, offsets)
are `Int`; the `as u8` truncation is explicit `% 256`.
-/

namespace Relibc

/-- Outcome of one read call on the underlying OS handle: either some bytes
(an empty list is end-of-file) or a platform failure. -/
inductive ReadResult where
  | ok (bytes : List Nat)
  | err
deriving DecidableEq, Repr

/-- Outcome of one write call on the line writer: a number of bytes accepted
or a failure. -/
inductive WriteResult where
  | ok (n : Nat)
  | err
deriving DecidableEq, Repr

/-- The process-wide error codes the modelled functions set. -/
inductive ErrnoCode where
  | EIO
  | ECHILD
  | EINVAL
deriving DecidableEq, Repr

/-- Modelled from the spec: the raw OS handle (syscall layer, an external
collaborator).  `pos` is the platform cursor, `size` the file length (for
end-relative seeks), `input` the script of outcomes successive platform
reads produce (exhausted script means end-of-file), `seekOk` whether the
platform accepts seeks and `seekErrCode` the (negative) code returned when
it does not. -/
structure Handle where
  pos : Int
  size : Int
  seekOk : Bool
  seekErrCode : Int
  input : List ReadResult
  closed : Bool
deriving DecidableEq, Repr

/-- The `flags` bit set of `FILE` (`F_EOF`, `F_ERR`, `F_PERM`, `F_SVB`),
modelled with one Boolean per bit. -/
structure Flags where
  eof : Bool
  err : Bool
  perm : Bool
  svb : Bool
deriving DecidableEq, Repr

/-- The `FILE` entity.  `read_buf`, `read_pos`, `read_size`, `unget` and
`pid` are the struct fields of the source; `handle` is the platform file;
`writerFlushOk` and `writes` are the script modelling the external
`LineWriter` (whether its flush succeeds, and the outcomes of successive
writes). -/
structure FILE where
  flags : Flags
  read_buf : List Nat
  read_pos : Nat
  read_size : Nat
  unget : Option Nat
  pid : Option Int
  handle : Handle
  writerFlushOk : Bool
  writes : List WriteResult
deriving DecidableEq, Repr

/-- Modelled from the spec: the whence constants of the platform seek
interface (`SEEK_SET`/`SEEK_CUR`/`SEEK_END`, from the missing constants
module). -/
def SEEK_SET : Int := 0

def SEEK_CUR : Int := 1

def SEEK_END : Int := 2

/-- Modelled from the spec: the sentinel `EOF` return value (a distinct
negative constant, from the missing constants module). -/
def EOF : Int := -1

/-- Modelled from the spec: the default buffer size substituted for a
requested size of zero (from the missing constants module). -/
def BUFSIZ : Nat := 1024

/-- `flags |= F_EOF` -/
def setEof (fl : Flags) : Flags := {fl with eof := true}

/-- `flags |= F_ERR` -/
def setErrFlag (fl : Flags) : Flags := {fl with err := true}

/-- `flags |= F_SVB` -/
def setSvb (fl : Flags) : Flags := {fl with svb := true}

/-- `flags &= !(F_EOF | F_ERR)` -/
def clearEofErr (fl : Flags) : Flags := {fl with eof := false, err := false}

/-- The unconsumed range `read_buf[read_pos..read_size]`. -/
def FILE.curSlice (f : FILE) : List Nat :=
  (f.read_buf.drop f.read_pos).take (f.read_size - f.read_pos)

/-- `self.file.read(&mut self.read_buf)`: one platform read into the
stream's read buffer.  The platform returns at most the buffer's capacity;
the bytes land at the front of the buffer and the platform cursor advances
by the number of bytes read. -/
def FILE.fileRead (f : FILE) : FILE × Except Unit (List Nat) :=
  match f.handle.input with
  | [] => (f, Except.ok [])
  | ReadResult.err :: rest =>
      ({f with handle := {f.handle with input := rest}}, Except.error ())
  | ReadResult.ok bs :: rest =>
      let bs := bs.take f.read_buf.length
      ({f with
          handle := {f.handle with input := rest, pos := f.handle.pos + bs.length},
          read_buf := bs ++ f.read_buf.drop bs.length},
       Except.ok bs)

/-- `<FILE as BufRead>::fill_buf` from the source: if the cursor range is
empty, one platform read; zero bytes latch `F_EOF`, a failure latches
`F_ERR` and propagates; otherwise `read_pos` is reset to 0 and `read_size`
to the count.  Always returns `read_buf[read_pos..read_size]`. -/
def FILE.fill_buf (f : FILE) : FILE × Except Unit (List Nat) :=
  if f.read_pos = f.read_size then
    match f.fileRead with
    | (f', Except.error e) =>
        ({f' with flags := setErrFlag f'.flags}, Except.error e)
    | (f', Except.ok bs) =>
        if bs.length = 0 then
          let f'' := {f' with flags := setEof f'.flags, read_size := 0, read_pos := 0}
          (f'', Except.ok f''.curSlice)
        else
          let f'' := {f' with read_size := bs.length, read_pos := 0}
          (f'', Except.ok f''.curSlice)
  else
    (f, Except.ok f.curSlice)

/-- `<FILE as BufRead>::consume` from the source:
`read_pos = (read_pos + i).min(read_size)`. -/
def FILE.consume (f : FILE) (i : Nat) : FILE :=
  {f with read_pos := min (f.read_pos + i) f.read_size}

/-- `<FILE as Read>::read` from the source, for a destination of length
`outLen`; returns the bytes written into the destination's front. -/
def FILE.read (f : FILE) (outLen : Nat) : FILE × Except Unit (List Nat) :=
  match (if outLen = 0 then none else f.unget) with
  | some c => ({f with unget := none}, Except.ok [c])
  | none =>
    match f.fill_buf with
    | (f', Except.error e) => (f', Except.error e)
    | (f', Except.ok buf) =>
        let len := min buf.length outLen
        (f'.consume len, Except.ok (buf.take len))

/-- `<FILE as Write>::flush` from the source: the line writer's flush
(scripted by `writerFlushOk`); a failure latches `F_ERR`. -/
def FILE.flush (f : FILE) : FILE × Bool :=
  if f.writerFlushOk then (f, true)
  else ({f with flags := setErrFlag f.flags}, false)

/-- `<FILE as Write>::write` from the source for a buffer of length `len`:
the line writer accepts some count (scripted); a failure latches `F_ERR`. -/
def FILE.write (f : FILE) (len : Nat) : FILE × Except Unit Nat :=
  match f.writes with
  | [] => (f, Except.ok 0)
  | WriteResult.err :: rest =>
      ({f with writes := rest, flags := setErrFlag f.flags}, Except.error ())
  | WriteResult.ok n :: rest =>
      ({f with writes := rest}, Except.ok (min n len))

/-- Modelled from the spec: `Sys::lseek` (raw OS syscall layer, an external
collaborator).  Returns the new cursor on success, a negative error code on
failure. -/
def Handle.lseek (h : Handle) (off : Int) (whence : Int) : Handle × Int :=
  if h.seekOk then
    let newpos : Int :=
      if whence = SEEK_SET then off
      else if whence = SEEK_CUR then h.pos + off
      else h.size + off
    if newpos < 0 then (h, -22)
    else ({h with pos := newpos}, newpos)
  else (h, h.seekErrCode)

/-- `fseeko` from the source: adjust a `SEEK_CUR` offset by the unconsumed
buffered amount, flush (failure aborts with `-1`), platform seek (negative
result propagated), and on success clear `F_EOF`/`F_ERR`, reset the read
cursors and the pushback slot. -/
def fseeko (f : FILE) (off : Int) (whence : Int) : FILE × Int :=
  let off' :=
    if whence = SEEK_CUR then off - ((f.read_size - f.read_pos : Nat) : Int)
    else off
  match f.flush with
  | (f1, false) => (f1, -1)
  | (f1, true) =>
    let s := f1.handle.lseek off' whence
    let f2 := {f1 with handle := s.1}
    if s.2 < 0 then (f2, s.2)
    else
      ({f2 with flags := clearEofErr f2.flags, read_pos := 0, read_size := 0,
                unget := none}, 0)

/-- `ftello` from the source: platform position minus the buffered-but-
unconsumed amount; `-1` when the platform query fails. -/
def ftello (f : FILE) : FILE × Int :=
  let s := f.handle.lseek 0 SEEK_CUR
  let f1 := {f with handle := s.1}
  if s.2 < 0 then (f1, -1)
  else (f1, s.2 - ((f.read_size - f.read_pos : Nat) : Int))

/-- Output of the `fgets` copy loop: final state, bytes copied to the
destination, the `wrote` flag, and whether a fill failed (the early
null return). -/
structure FgetsLoopOut where
  state : FILE
  copied : List Nat
  wrote : Bool
  errored : Bool
deriving DecidableEq, Repr

/-- The `loop` of `fgets`, fuelled (the fuel is the initial `left`, an upper
bound on the number of iterations since each iteration copies at least one
byte). -/
def fgetsLoopF : Nat → FILE → Nat → Bool → FgetsLoopOut
  | 0, f, _, wrote => ⟨f, [], wrote, false⟩
  | fuel + 1, f, left, wrote =>
    if left = 0 then ⟨f, [], wrote, false⟩
    else
      match f.fill_buf with
      | (f1, Except.error _) => ⟨f1, [], wrote, true⟩
      | (f1, Except.ok buf) =>
        if buf.length = 0 then ⟨f1, [], wrote, false⟩
        else
          let len := min buf.length left
          match (buf.take len).findIdx? (fun c => c == 10) with
          | some i =>
              ⟨f1.consume (i + 1), buf.take (i + 1), true, false⟩
          | none =>
              let r := fgetsLoopF fuel (f1.consume len) (left - len) true
              ⟨r.state, buf.take len ++ r.copied, r.wrote, r.errored⟩

/-- The `fgets` loop entered with adequate fuel. -/
def fgetsLoop (f : FILE) (left : Nat) (wrote : Bool) : FgetsLoopOut :=
  fgetsLoopF left f left wrote

/-- The pushback stage of `fgets`: reserve the terminator slot
(`left = max - 1`, saturating), and emit the `unget` byte first when space
remains.  Returns the state, the bytes emitted, and the remaining `left`. -/
def fgetsPre (f : FILE) (max : Nat) : FILE × List Nat × Nat :=
  let left := max - 1
  if 1 ≤ left then
    match f.unget with
    | some c => ({f with unget := none}, [c], left - 1)
    | none => (f, [], left)
  else (f, [], left)

/-- Observable outcome of `fgets`: final state, every byte written to the
destination (terminator excluded), whether the terminating NUL byte was
written, and `ret = true` when the destination pointer is returned
(`false` for the null return). -/
structure FgetsOut where
  state : FILE
  out : List Nat
  nulWritten : Bool
  ret : Bool
deriving DecidableEq, Repr

/-- `fgets` from the source. -/
def fgets (f : FILE) (max : Nat) : FgetsOut :=
  let p := fgetsPre f max
  let r := fgetsLoop p.1 p.2.2 false
  if r.errored then ⟨r.state, p.2.1 ++ r.copied, false, false⟩
  else ⟨r.state, p.2.1 ++ r.copied, decide (1 ≤ max), r.wrote⟩

/-- The `fread` transfer loop, fuelled (the fuel is the initial byte count,
an upper bound on the iterations since each non-final iteration transfers
at least one byte).  Returns the state and the total bytes transferred. -/
def freadLoopF : Nat → FILE → Nat → FILE × Nat
  | 0, f, _ => (f, 0)
  | fuel + 1, f, remaining =>
    if remaining = 0 then (f, 0)
    else
      match f.read remaining with
      | (f1, Except.error _) => (f1, 0)
      | (f1, Except.ok bs) =>
        if bs.length = 0 then (f1, 0)
        else
          let r := freadLoopF fuel f1 (remaining - bs.length)
          (r.1, bs.length + r.2)

/-- The `fread` loop entered with adequate fuel. -/
def freadTotal (f : FILE) (remaining : Nat) : FILE × Nat :=
  freadLoopF remaining f remaining

/-- `fread` from the source: zero size or count returns zero without
touching the stream; otherwise the transfer loop runs and the return value
is `bytes_transferred / size`. -/
def fread (f : FILE) (size nitems : Nat) : FILE × Nat :=
  if size = 0 ∨ nitems = 0 then (f, 0)
  else
    let r := freadTotal f (size * nitems)
    (r.1, r.2 / size)

/-- The `fwrite` transfer loop, fuelled like the `fread` one. -/
def fwriteLoopF : Nat → FILE → Nat → FILE × Nat
  | 0, f, _ => (f, 0)
  | fuel + 1, f, remaining =>
    if remaining = 0 then (f, 0)
    else
      match f.write remaining with
      | (f1, Except.error _) => (f1, 0)
      | (f1, Except.ok n) =>
        if n = 0 then (f1, 0)
        else
          let r := fwriteLoopF fuel f1 (remaining - n)
          (r.1, n + r.2)

/-- The `fwrite` loop entered with adequate fuel. -/
def fwriteTotal (f : FILE) (remaining : Nat) : FILE × Nat :=
  fwriteLoopF remaining f remaining

/-- `fwrite` from the source. -/
def fwrite (f : FILE) (size nitems : Nat) : FILE × Nat :=
  if size = 0 ∨ nitems = 0 then (f, 0)
  else
    let r := fwriteTotal f (size * nitems)
    (r.1, r.2 / size)

/-- `getc_unlocked` from the source: one-byte read; zero bytes or a failure
yield `EOF`, otherwise the byte as a `c_int`. -/
def getc_unlocked (f : FILE) : FILE × Int :=
  match f.read 1 with
  | (f1, Except.error _) => (f1, EOF)
  | (f1, Except.ok []) => (f1, EOF)
  | (f1, Except.ok (b :: _)) => (f1, (b : Int))

/-- The value of `c as u8` for a `c_int` argument: the low 8 bits. -/
def toU8 (c : Int) : Nat := (c % 256).toNat

/-- Observable outcome of `ungetc`: state, return value, and the error code
set (if any). -/
structure UngetcOut where
  state : FILE
  ret : Int
  errnoSet : Option ErrnoCode
deriving DecidableEq, Repr

/-- `ungetc` from the source: fails with `EIO` when a byte is already
pending; otherwise stores `c as u8` and returns `c`. -/
def ungetc (c : Int) (f : FILE) : UngetcOut :=
  if f.unget.isSome then ⟨f, EOF, some ErrnoCode.EIO⟩
  else ⟨{f with unget := some (toU8 c)}, c, none⟩

/-- `setvbuf` from the source: a null buffer or a zero size installs a
freshly allocated buffer (size defaulted to `BUFSIZ` when zero), otherwise
the caller's borrowed range of length `size` (passed here as the list `b`);
marks `F_SVB`.  The read cursors are not touched. -/
def setvbuf (f : FILE) (buf : Option (List Nat)) (_mode : Int) (size : Nat) :
    FILE × Int :=
  match buf with
  | none =>
      ({f with read_buf := List.replicate (if size = 0 then BUFSIZ else size) 0,
               flags := setSvb f.flags}, 0)
  | some b =>
      if size = 0 then
        ({f with read_buf := List.replicate BUFSIZ 0, flags := setSvb f.flags}, 0)
      else
        ({f with read_buf := b, flags := setSvb f.flags}, 0)

/-- `fclose` from the source, restricted to the stream-state effects the
claims observe: flush (failure recorded), close of the handle; the lock and
deallocation bookkeeping carry no observable stream state here. -/
def fclose (f : FILE) : FILE × Int :=
  let p := f.flush
  let f2 := {p.1 with handle := {p.1.handle with closed := true}}
  (f2, if p.2 then 0 else 1)

/-- Observable outcome of `pclose`: state, return value, error code set,
and whether the close path and the wait were performed. -/
structure PcloseOut where
  state : FILE
  ret : Int
  errnoSet : Option ErrnoCode
  didClose : Bool
  didWait : Bool
deriving Repr

/-- `pclose` from the source: take the pid (absence fails with `ECHILD`,
no close, no wait), close through the normal close path, then wait
(`wait` models `Sys::waitpid`: `none` is a wait failure, `some s` the exit
status). -/
def pclose (f : FILE) (wait : Int → Option Int) : PcloseOut :=
  match f.pid with
  | none => ⟨f, -1, some ErrnoCode.ECHILD, false, false⟩
  | some pid =>
    let f1 := (fclose {f with pid := none}).1
    match wait pid with
    | none => ⟨f1, -1, none, true, true⟩
    | some wstatus => ⟨f1, wstatus, none, true, true⟩

/-- The read-buffer cursor invariant of the data model:
`0 ≤ read_pos ≤ read_size ≤ read_buf.len()`. -/
def wf (f : FILE) : Prop :=
  f.read_pos ≤ f.read_size ∧ f.read_size ≤ f.read_buf.length

instance (f : FILE) : Decidable (wf f) :=
  inferInstanceAs (Decidable (_ ∧ _))

/-! Concrete stream states used to evaluate the theorems on explicit
inputs. -/

/-- A plain open handle at position 0 with nothing left to read. -/
def H0 : Handle := ⟨0, 100, true, -9, [], false⟩

/-- A freshly opened stream: empty cursors, no pushback, no pid. -/
def F0 : FILE := ⟨⟨false, false, false, false⟩, [0, 0, 0, 0], 0, 0, none, none, H0, true, []⟩

/-- A stream whose handle yields one byte and then a read failure. -/
def C1F : FILE :=
  {F0 with read_buf := [0, 0],
           handle := {H0 with input := [ReadResult.ok [97], ReadResult.err]}}

/-- A stream with a pending pushback byte. -/
def C2F : FILE := {F0 with unget := some 7, read_buf := [1, 2, 3], read_size := 2}

/-- A stream with two unconsumed buffered bytes. -/
def C3F : FILE := {F0 with read_buf := [7, 8], read_size := 2}

/-- Non-empty cursor range: a fill must not touch the handle. -/
def C4a : FILE :=
  {F0 with read_buf := [9, 9], read_size := 1,
           handle := {H0 with input := [ReadResult.ok [1]]}}

/-- Empty cursor range and a handle read that fails. -/
def C4b : FILE := {F0 with handle := {H0 with input := [ReadResult.err]}}

/-- Empty cursor range and a handle read that returns zero bytes. -/
def C4c : FILE := {F0 with handle := {H0 with input := [ReadResult.ok []]}}

/-- Empty cursor range and a handle read that returns two bytes. -/
def C4d : FILE :=
  {F0 with read_buf := [0, 0, 0], handle := {H0 with input := [ReadResult.ok [5, 6]]}}

/-- A stream whose writer flush fails. -/
def C5a : FILE := {F0 with writerFlushOk := false}

/-- A stream whose platform rejects seeks. -/
def C5b : FILE := {F0 with handle := {H0 with seekOk := false}}

/-- A stream at platform position 10 with two unconsumed buffered bytes. -/
def C6F : FILE :=
  {F0 with read_buf := [1, 2, 3, 4], read_pos := 1, read_size := 3,
           handle := {H0 with pos := 10}}

/-- A stream whose handle yields 3 bytes, then 1 byte, then end-of-file. -/
def C7F : FILE :=
  {F0 with read_buf := [0, 0, 0],
           handle := {H0 with input :=
             [ReadResult.ok [1, 2, 3], ReadResult.ok [4], ReadResult.ok []]}}

/-- A stream whose writer accepts 3 bytes, then 1 byte, then fails. -/
def C7G : FILE :=
  {F0 with writes := [WriteResult.ok 3, WriteResult.ok 1, WriteResult.err]}

/-- A subprocess-backed stream (child pid 42). -/
def C9F : FILE := {F0 with pid := some 42}

/-- A waitpid oracle whose child exits with status 7. -/
def waitOk : Int → Option Int := fun _ => some 7

/-- A waitpid oracle that fails. -/
def waitFail : Int → Option Int := fun _ => none

/-! Helper lemmas (shared). -/

/-- `fclose` neither consults nor changes the `pid` field. -/
theorem fclose_pid (g : FILE) : (fclose g).1.pid = g.pid := by
  unfold fclose FILE.flush
  split <;> rfl

/-- C2: a pushback byte is returned alone, before the buffer, and
returning it is terminal for the call: the state is unchanged except that
the slot is cleared (in particular no buffered byte is consumed or
copied). -/
theorem read_unget_first (f : FILE) (c : Nat) (outLen : Nat)
    (hu : f.unget = some c) (hlen : 0 < outLen) :
    f.read outLen = ({f with unget := none}, Except.ok [c]) := by
  have h0 : ¬ outLen = 0 := by omega
  unfold FILE.read
  simp [h0, hu]

/-- Witness for C2 at a concrete stream with pushback byte 7. -/
theorem read_unget_first_witness :
    FILE.read C2F 4 = ({C2F with unget := none}, Except.ok [7]) :=
  read_unget_first C2F 7 4 rfl (by decide)

/-- C8: `ungetc` succeeds exactly when the pushback slot is empty, storing
the argument's low byte and returning the argument; when a byte is pending
it fails with `EIO` and the state (the pending byte included) is
unchanged. -/
theorem ungetc_spec (f : FILE) (c : Int) (b : Nat) :
    (f.unget = none → ungetc c f = ⟨{f with unget := some (toU8 c)}, c, none⟩) ∧
    (f.unget = some b → ungetc c f = ⟨f, EOF, some ErrnoCode.EIO⟩) := by
  constructor <;> intro hu <;> simp [ungetc, hu]

/-- Witness for C8: success on an empty slot, `EIO` failure with the
pending byte untouched on an occupied one. -/
theorem ungetc_spec_witness :
    ungetc 65 F0 = ⟨{F0 with unget := some (toU8 65)}, 65, none⟩ ∧
    ungetc 66 C2F = ⟨C2F, EOF, some ErrnoCode.EIO⟩ :=
  ⟨(ungetc_spec F0 65 0).1 rfl, (ungetc_spec C2F 66 7).2 rfl⟩

/-- C10: `ungetc` performs no range validation: any `c_int` is accepted,
the return value is the original `c`, only the low 8 bits are stored, and
the next single-byte read yields `c mod 256`. -/
theorem ungetc_mod256 (f : FILE) (c : Int) (hu : f.unget = none) :
    (ungetc c f).ret = c ∧
    (ungetc c f).state.unget = some (toU8 c) ∧
    (getc_unlocked (ungetc c f).state).2 = c % 256 := by
  have h1 : ungetc c f = ⟨{f with unget := some (toU8 c)}, c, none⟩ := by
    simp [ungetc, hu]
  rw [h1]
  refine ⟨rfl, rfl, ?_⟩
  show (getc_unlocked {f with unget := some (toU8 c)}).2 = c % 256
  simp [getc_unlocked, FILE.read, toU8]
  omega

/-- Witness for C10 at the `EOF` sentinel: `ungetc(-1)` succeeds returning
`-1`, and the following read yields 255, not the pushed value. -/
theorem ungetc_mod256_witness :
    (ungetc (-1) F0).ret = -1 ∧
    (ungetc (-1) F0).state.unget = some 255 ∧
    (getc_unlocked (ungetc (-1) F0).state).2 = 255 := by
  have h := ungetc_mod256 F0 (-1) rfl
  refine ⟨h.1, ?_, ?_⟩
  · rw [h.2.1]; decide
  · rw [h.2.2]; decide

/-- C9: `pclose` without a child pid fails with `ECHILD`, performing no
close and no wait and leaving the stream unchanged; with a pid present the
pid is consumed exactly once, the stream goes through the normal close
path, and the result is the child's exit status (or `-1` when the wait
fails). -/
theorem pclose_spec (f : FILE) (wait : Int → Option Int) (pid : Int) :
    (f.pid = none → pclose f wait = ⟨f, -1, some ErrnoCode.ECHILD, false, false⟩) ∧
    (f.pid = some pid →
      (pclose f wait).state = (fclose {f with pid := none}).1 ∧
      (pclose f wait).state.pid = none ∧
      (pclose f wait).didClose = true ∧
      (pclose f wait).didWait = true ∧
      (wait pid = none →
        pclose f wait = ⟨(fclose {f with pid := none}).1, -1, none, true, true⟩) ∧
      (∀ s, wait pid = some s → (pclose f wait).ret = s)) := by
  constructor
  · intro hp
    simp [pclose, hp]
  · intro hp
    have hpid : (fclose {f with pid := none}).1.pid = none := by
      rw [fclose_pid]
    cases hw : wait pid with
    | none =>
        refine ⟨?_, ?_, ?_, ?_, ?_, ?_⟩ <;>
          simp [pclose, hp, hw, hpid]
    | some s =>
        refine ⟨?_, ?_, ?_, ?_, ?_, ?_⟩ <;>
          simp [pclose, hp, hw, hpid]

/-- Witness for C9: the `ECHILD` failure on a non-subprocess stream, the
exit status on a successful wait, and the `-1` on a failed wait, all at
concrete streams. -/
theorem pclose_spec_witness :
    pclose F0 waitOk = ⟨F0, -1, some ErrnoCode.ECHILD, false, false⟩ ∧
    (pclose C9F waitOk).ret = 7 ∧
    pclose C9F waitFail = ⟨(fclose {C9F with pid := none}).1, -1, none, true, true⟩ :=
  ⟨(pclose_spec F0 waitOk 0).1 rfl,
   ((pclose_spec C9F waitOk 42).2 rfl).2.2.2.2.2 7 rfl,
   ((pclose_spec C9F waitFail 42).2 rfl).2.2.2.2.1 rfl⟩

/-- C4: `fill_buf`: with an empty cursor range exactly one handle read is
issued (the script advances by one entry); zero bytes latch the EOF flag
and return an empty range as success; a failure latches the error flag and
propagates, leaving the cursors untouched; otherwise `read_pos` becomes 0,
`read_size` the byte count, and the returned range is the read bytes.
With a non-empty cursor range nothing is read from the handle and the
state is unchanged. -/
theorem fill_buf_spec (f : FILE) (bs : List Nat) (rest : List ReadResult) :
    (f.read_pos ≠ f.read_size → f.fill_buf = (f, Except.ok f.curSlice)) ∧
    (f.read_pos = f.read_size → f.handle.input = ReadResult.err :: rest →
      f.fill_buf =
        ({f with handle := {f.handle with input := rest},
                 flags := setErrFlag f.flags}, Except.error ())) ∧
    (f.read_pos = f.read_size → f.handle.input = ReadResult.ok [] :: rest →
      f.fill_buf =
        ({f with handle := {f.handle with input := rest},
                 flags := setEof f.flags, read_pos := 0, read_size := 0},
         Except.ok [])) ∧
    (f.read_pos = f.read_size → f.handle.input = ReadResult.ok bs :: rest →
      bs ≠ [] → bs.length ≤ f.read_buf.length →
      f.fill_buf =
        ({f with handle := {f.handle with input := rest,
                                          pos := f.handle.pos + bs.length},
                 read_buf := bs ++ f.read_buf.drop bs.length,
                 read_pos := 0, read_size := bs.length},
         Except.ok bs)) := by
  obtain ⟨fl, rb, rp, rs, ug, pid, h, wok, ws⟩ := f
  obtain ⟨hp, hsz, hso, hsec, hin, hcl⟩ := h
  refine ⟨?_, ?_, ?_, ?_⟩
  · intro hne
    simp only [FILE.fill_buf]
    rw [if_neg hne]
  · intro he hi
    dsimp only at he hi
    subst he
    subst hi
    simp [FILE.fill_buf, FILE.fileRead]
  · intro he hi
    dsimp only at he hi
    subst he
    subst hi
    simp [FILE.fill_buf, FILE.fileRead, FILE.curSlice]
  · intro he hi hne hle
    dsimp only at he hi hle
    subst he
    subst hi
    have htake : bs.take rb.length = bs := List.take_of_length_le hle
    have hlen : ¬ bs.length = 0 := by
      cases bs with
      | nil => exact absurd rfl hne
      | cons a t => simp
    simp [FILE.fill_buf, FILE.fileRead, FILE.curSlice, htake, hlen,
      List.take_left]

/-- Witness for C4: all four branches at concrete streams. -/
theorem fill_buf_spec_witness :
    C4a.fill_buf = (C4a, Except.ok C4a.curSlice) ∧
    C4b.fill_buf =
      ({C4b with handle := {C4b.handle with input := []},
                 flags := setErrFlag C4b.flags}, Except.error ()) ∧
    C4c.fill_buf =
      ({C4c with handle := {C4c.handle with input := []},
                 flags := setEof C4c.flags, read_pos := 0, read_size := 0},
       Except.ok []) ∧
    C4d.fill_buf =
      ({C4d with handle := {C4d.handle with input := [],
                                            pos := C4d.handle.pos + ([5, 6] : List Nat).length},
                 read_buf := [5, 6] ++ C4d.read_buf.drop ([5, 6] : List Nat).length,
                 read_pos := 0, read_size := ([5, 6] : List Nat).length},
       Except.ok [5, 6]) :=
  ⟨(fill_buf_spec C4a [] []).1 (by decide),
   (fill_buf_spec C4b [] []).2.1 rfl rfl,
   (fill_buf_spec C4c [] []).2.2.1 rfl rfl,
   (fill_buf_spec C4d [5, 6] []).2.2.2 rfl rfl (by decide) (by decide)⟩

/-- A relative platform seek that stays nonnegative moves the cursor by the
offset and returns the new position. -/
theorem lseek_cur (h : Handle) (off : Int) (hso : h.seekOk = true)
    (hnn : 0 ≤ h.pos + off) :
    h.lseek off SEEK_CUR = ({h with pos := h.pos + off}, h.pos + off) := by
  unfold Handle.lseek
  rw [if_pos hso]
  have h1 : ¬ ((SEEK_CUR : Int) = SEEK_SET) := by decide
  rw [if_neg h1, if_pos rfl, if_neg (by omega)]

/-- A successful `fseeko`: flush succeeds, the platform seek (at the
already-adjusted offset) returns a nonnegative position, and the stream's
flags, cursors and pushback slot are reset. -/
theorem fseeko_success (f : FILE) (off w : Int) (hw : f.writerFlushOk = true)
    (h' : Handle) (r : Int)
    (hls : f.handle.lseek
      (if w = SEEK_CUR then off - ((f.read_size - f.read_pos : Nat) : Int)
       else off) w = (h', r))
    (hr : 0 ≤ r) :
    fseeko f off w =
      ({f with handle := h', flags := clearEofErr f.flags,
               read_pos := 0, read_size := 0, unget := none}, 0) := by
  obtain ⟨fl, rb, rp, rs, ug, pid, h, wok, ws⟩ := f
  dsimp only at hw hls ⊢
  subst hw
  simp only [fseeko, FILE.flush, eq_self_iff_true, if_true, hls]
  rw [if_neg (by omega)]

/-- The value `ftello` reports when the platform position query
succeeds. -/
theorem ftello_eq (f : FILE) (hso : f.handle.seekOk = true)
    (hpos : 0 ≤ f.handle.pos) :
    (ftello f).2 = f.handle.pos - ((f.read_size - f.read_pos : Nat) : Int) := by
  have hl0 := lseek_cur f.handle 0 hso (by omega)
  simp only [ftello, hl0]
  rw [if_neg (by omega)]
  omega

/-- C5: `fseeko` subtracts the unconsumed buffered amount from a
`SEEK_CUR` offset before the platform seek; a flush failure aborts with
`-1` (the handle untouched); a platform seek failure propagates its error
code; and a successful seek clears the EOF and error flags and resets the
read cursors and the pushback slot. -/
theorem fseeko_spec (f : FILE) (off w : Int) :
    (f.writerFlushOk = false →
      fseeko f off w = ({f with flags := setErrFlag f.flags}, -1)) ∧
    (f.writerFlushOk = true → f.handle.seekOk = false →
      f.handle.seekErrCode < 0 →
      fseeko f off w = (f, f.handle.seekErrCode)) ∧
    (f.writerFlushOk = true →
      ∀ h' r,
        f.handle.lseek
          (if w = SEEK_CUR then off - ((f.read_size - f.read_pos : Nat) : Int)
           else off) w = (h', r) →
        0 ≤ r →
        fseeko f off w =
          ({f with handle := h', flags := clearEofErr f.flags,
                   read_pos := 0, read_size := 0, unget := none}, 0)) := by
  refine ⟨?_, ?_, fun hw h' r hls hr => fseeko_success f off w hw h' r hls hr⟩
  · intro hw
    obtain ⟨fl, rb, rp, rs, ug, pid, h, wok, ws⟩ := f
    dsimp only at hw
    subst hw
    simp [fseeko, FILE.flush]
  · intro hw hso hcode
    obtain ⟨fl, rb, rp, rs, ug, pid, h, wok, ws⟩ := f
    obtain ⟨hp, hsz, hsok, hsec, hin, hcl⟩ := h
    dsimp only at hw hso hcode
    subst hw
    subst hso
    simp [fseeko, FILE.flush, Handle.lseek, hcode]

/-- Witness for C5: the flush-failure abort, the propagated platform error
code, and a successful relative seek by 0 on a stream with 2 unconsumed
buffered bytes, at concrete streams. -/
theorem fseeko_spec_witness :
    fseeko C5a 3 SEEK_SET = ({C5a with flags := setErrFlag C5a.flags}, -1) ∧
    fseeko C5b 3 SEEK_SET = (C5b, -9) ∧
    fseeko C6F 0 SEEK_CUR =
      ({C6F with handle := {C6F.handle with pos := 8},
                 flags := clearEofErr C6F.flags,
                 read_pos := 0, read_size := 0, unget := none}, 0) :=
  ⟨(fseeko_spec C5a 3 SEEK_SET).1 rfl,
   (fseeko_spec C5b 3 SEEK_SET).2.1 rfl rfl (by decide),
   (fseeko_spec C6F 0 SEEK_CUR).2.2 rfl {C6F.handle with pos := 8} 8
     (by decide) (by decide)⟩

/-- C6: `ftello` reports `platform_position - (read_size - read_pos)`, and
a relative seek by zero whose platform seek succeeds leaves the position
reported by `ftello` unchanged. -/
theorem ftello_fseeko_zero (f : FILE)
    (hso : f.handle.seekOk = true) (hpos : 0 ≤ f.handle.pos)
    (hfl : f.writerFlushOk = true)
    (hlog : 0 ≤ f.handle.pos - ((f.read_size - f.read_pos : Nat) : Int)) :
    (ftello f).2 = f.handle.pos - ((f.read_size - f.read_pos : Nat) : Int) ∧
    (fseeko f 0 SEEK_CUR).2 = 0 ∧
    (ftello ((fseeko f 0 SEEK_CUR).1)).2 = (ftello f).2 := by
  have htell := ftello_eq f hso hpos
  have hls := lseek_cur f.handle (0 - ((f.read_size - f.read_pos : Nat) : Int))
    hso (by omega)
  have hseek := fseeko_success f 0 SEEK_CUR hfl
    {f.handle with pos := f.handle.pos + (0 - ((f.read_size - f.read_pos : Nat) : Int))}
    (f.handle.pos + (0 - ((f.read_size - f.read_pos : Nat) : Int)))
    (by simpa using hls) (by omega)
  refine ⟨htell, by rw [hseek], ?_⟩
  rw [hseek, htell]
  rw [ftello_eq]
  · show f.handle.pos + (0 - ((f.read_size - f.read_pos : Nat) : Int)) -
      ((((0 : Nat) - (0 : Nat) : Nat)) : Int) =
      f.handle.pos - ((f.read_size - f.read_pos : Nat) : Int)
    omega
  · exact hso
  · show 0 ≤ f.handle.pos + (0 - ((f.read_size - f.read_pos : Nat) : Int))
    omega

/-- Witness for C6 at a concrete stream: platform position 10 with 2
unconsumed buffered bytes reports logical position 8, and a `SEEK_CUR`
seek by 0 keeps it at 8. -/
theorem ftello_fseeko_zero_witness :
    (ftello C6F).2 = 8 ∧
    (fseeko C6F 0 SEEK_CUR).2 = 0 ∧
    (ftello ((fseeko C6F 0 SEEK_CUR).1)).2 = 8 := by
  have h := ftello_fseeko_zero C6F rfl (by decide) rfl (by decide)
  exact ⟨h.1.trans (by decide), h.2.1, h.2.2.trans (h.1.trans (by decide))⟩

/-- `fill_buf` preserves the cursor invariant. -/
theorem wf_fill_buf (f : FILE) (h : wf f) : wf ((f.fill_buf)).1 := by
  obtain ⟨fl, rb, rp, rs, ug, pid, hd, wok, ws⟩ := f
  obtain ⟨hp, hsz, hso, hsec, hin, hcl⟩ := hd
  obtain ⟨h1, h2⟩ := h
  dsimp only at h1 h2
  by_cases he : rp = rs
  · subst he
    cases hin with
    | nil => simp [FILE.fill_buf, FILE.fileRead, wf]
    | cons r rest =>
      cases r with
      | err =>
          simp [FILE.fill_buf, FILE.fileRead, wf]
          exact h2
      | ok bs0 =>
          simp only [FILE.fill_buf, FILE.fileRead, eq_self_iff_true, if_true]
          by_cases hb : (bs0.take rb.length).length = 0
          · rw [if_pos hb]
            exact ⟨Nat.le_refl 0, Nat.zero_le _⟩
          · rw [if_neg hb]
            refine ⟨Nat.zero_le _, ?_⟩
            simp [List.length_take]
  · simp [FILE.fill_buf, he, wf]
    exact ⟨h1, h2⟩

/-- `consume` preserves the cursor invariant. -/
theorem wf_consume (f : FILE) (h : wf f) (n : Nat) : wf (f.consume n) := by
  exact ⟨Nat.min_le_right _ _, h.2⟩

/-- `read` preserves the cursor invariant. -/
theorem wf_read (f : FILE) (h : wf f) (m : Nat) : wf ((f.read m)).1 := by
  unfold FILE.read
  cases hm : (if m = 0 then none else f.unget) with
  | some c =>
      dsimp only
      exact ⟨h.1, h.2⟩
  | none =>
      dsimp only
      cases hfb : f.fill_buf with
      | mk f1 res =>
        cases res with
        | error e =>
            dsimp only
            have w1 := wf_fill_buf f h
            rw [hfb] at w1
            exact w1
        | ok buf =>
            dsimp only
            have w1 := wf_fill_buf f h
            rw [hfb] at w1
            exact wf_consume f1 w1 _

/-- `fseeko` preserves the cursor invariant on every path. -/
theorem wf_fseeko (f : FILE) (h : wf f) (off w : Int) : wf ((fseeko f off w)).1 := by
  obtain ⟨fl, rb, rp, rs, ug, pid, hd, wok, ws⟩ := f
  obtain ⟨h1, h2⟩ := h
  dsimp only at h1 h2
  cases wok with
  | false =>
      simp [fseeko, FILE.flush, wf]
      exact ⟨h1, h2⟩
  | true =>
      simp only [fseeko, FILE.flush, eq_self_iff_true, if_true]
      split <;> split <;>
        first
        | exact ⟨h1, h2⟩
        | exact ⟨Nat.le_refl 0, Nat.zero_le _⟩

/-- `setvbuf` does not touch the read cursors. -/
theorem setvbuf_cursors (f : FILE) (buf : Option (List Nat)) (mode : Int)
    (size : Nat) :
    ((setvbuf f buf mode size).1).read_pos = f.read_pos ∧
    ((setvbuf f buf mode size).1).read_size = f.read_size := by
  unfold setvbuf
  cases buf with
  | none => exact ⟨rfl, rfl⟩
  | some b =>
      dsimp only
      split <;> exact ⟨rfl, rfl⟩

/-- C3 (amended): the invariant `read_pos ≤ read_size ≤ read_buf.len()` is
preserved by `fill_buf`, `consume`, `read` and `fseeko`; `setvbuf`
preserves it only when the replacement buffer is at least `read_size`
long (it replaces the buffer without resetting the cursors). -/
theorem stream_wf_preserved (f : FILE) (hwf : wf f) (n m : Nat) (off w : Int)
    (buf : Option (List Nat)) (mode : Int) (size : Nat) :
    wf ((f.fill_buf)).1 ∧ wf (f.consume n) ∧ wf ((f.read m)).1 ∧
    wf ((fseeko f off w)).1 ∧
    (f.read_size ≤ ((setvbuf f buf mode size).1).read_buf.length →
      wf (setvbuf f buf mode size).1) := by
  refine ⟨wf_fill_buf f hwf, wf_consume f hwf n, wf_read f hwf m,
    wf_fseeko f hwf off w, ?_⟩
  intro hle
  obtain ⟨c1, c2⟩ := setvbuf_cursors f buf mode size
  exact ⟨by rw [c1, c2]; exact hwf.1, by rw [c2]; exact hle⟩

/-- Counterexample for C3 as stated: a stream satisfying the invariant
with 2 unconsumed buffered bytes; `setvbuf` with a caller-supplied 1-byte
buffer leaves `read_size = 2 > 1 = read_buf.len()`, violating the
invariant. -/
theorem setvbuf_wf_cex : wf C3F ∧ ¬ wf ((setvbuf C3F (some [5]) 0 1).1) := by
  constructor <;> decide

/-- Witness for C3 (amended) at a concrete stream. -/
theorem stream_wf_preserved_witness :
    wf ((F0.fill_buf)).1 ∧ wf (F0.consume 1) ∧ wf ((F0.read 2)).1 ∧
    wf ((fseeko F0 0 SEEK_SET)).1 ∧ wf ((setvbuf F0 (some [1, 2]) 0 2).1) := by
  have h := stream_wf_preserved F0 (by decide) 1 2 0 SEEK_SET (some [1, 2]) 0 2
  exact ⟨h.1, h.2.1, h.2.2.1, h.2.2.2.1, h.2.2.2.2 (by decide)⟩

/-- Counterexample for C1 as stated: on a stream whose handle yields the
byte 97 and then a read error, `fgets` with capacity 10 writes the byte to
the destination and then hits the error on the next fill — and returns the
failure indicator even though one byte had already been written. -/
theorem fgets_error_after_bytes_cex :
    (fgets C1F 10).ret = false ∧ (fgets C1F 10).out = [97] := by
  constructor <;> decide

/-- C1 (amended): `fgets` returns the failure indicator exactly when the
fill loop either hit a read error (even after bytes were already written)
or copied no byte from the buffer (immediate end-of-file; a pushback byte
alone does not count); in every case the destination holds the pushback
byte followed by everything the loop copied. -/
theorem fgets_ret_iff (f : FILE) (max : Nat) :
    (fgets f max).out =
      (fgetsPre f max).2.1 ++
        (fgetsLoop (fgetsPre f max).1 (fgetsPre f max).2.2 false).copied ∧
    ((fgets f max).ret = true ↔
      ((fgetsLoop (fgetsPre f max).1 (fgetsPre f max).2.2 false).errored = false ∧
       (fgetsLoop (fgetsPre f max).1 (fgetsPre f max).2.2 false).wrote = true)) := by
  constructor
  · cases he : (fgetsLoop (fgetsPre f max).1 (fgetsPre f max).2.2 false).errored <;>
      simp [fgets, he]
  · cases he : (fgetsLoop (fgetsPre f max).1 (fgetsPre f max).2.2 false).errored <;>
      simp [fgets, he]

/-- `read` never returns more bytes than the destination holds. -/
theorem read_length_le (f : FILE) (outLen : Nat) (f' : FILE) (bs : List Nat)
    (h : f.read outLen = (f', Except.ok bs)) : bs.length ≤ outLen := by
  unfold FILE.read at h
  cases hc : (if outLen = 0 then none else f.unget) with
  | some c =>
      rw [hc] at h
      have h0 : ¬ outLen = 0 := by
        intro h0
        rw [if_pos h0] at hc
        exact Option.noConfusion hc
      simp only [Prod.mk.injEq, Except.ok.injEq] at h
      obtain ⟨-, hbs⟩ := h
      subst hbs
      simp
      omega
  | none =>
      rw [hc] at h
      rcases hfb : f.fill_buf with ⟨f1, res⟩
      rw [hfb] at h
      cases res with
      | error e => simp at h
      | ok buf =>
          simp only [Prod.mk.injEq, Except.ok.injEq] at h
          obtain ⟨-, hbs⟩ := h
          subst hbs
          simp only [List.length_take]
          omega

/-- `write` never reports more bytes accepted than were offered. -/
theorem write_length_le (f : FILE) (len : Nat) (f' : FILE) (n : Nat)
    (h : f.write len = (f', Except.ok n)) : n ≤ len := by
  unfold FILE.write at h
  cases hw : f.writes with
  | nil =>
      rw [hw] at h
      simp only [Prod.mk.injEq, Except.ok.injEq] at h
      omega
  | cons wr rest =>
      rw [hw] at h
      cases wr with
      | err => simp at h
      | ok k =>
          simp only [Prod.mk.injEq, Except.ok.injEq] at h
          obtain ⟨-, hn⟩ := h
          omega

/-- The `fread` loop transfers at most the requested number of bytes. -/
theorem freadLoopF_le (fuel : Nat) : ∀ (f : FILE) (rem : Nat),
    (freadLoopF fuel f rem).2 ≤ rem := by
  induction fuel with
  | zero => intro f rem; simp [freadLoopF]
  | succ fuel ih =>
      intro f rem
      by_cases h0 : rem = 0
      · simp [freadLoopF, h0]
      · rcases hr : f.read rem with ⟨f1, res⟩
        cases res with
        | error e => simp [freadLoopF, h0, hr]
        | ok bs =>
            by_cases hb : bs.length = 0
            · simp [freadLoopF, h0, hr, hb]
            · have hle := read_length_le f rem f1 bs hr
              have hrec := ih f1 (rem - bs.length)
              simp [freadLoopF, h0, hr, hb]
              omega

/-- The `fwrite` loop transfers at most the requested number of bytes. -/
theorem fwriteLoopF_le (fuel : Nat) : ∀ (f : FILE) (rem : Nat),
    (fwriteLoopF fuel f rem).2 ≤ rem := by
  induction fuel with
  | zero => intro f rem; simp [fwriteLoopF]
  | succ fuel ih =>
      intro f rem
      by_cases h0 : rem = 0
      · simp [fwriteLoopF, h0]
      · rcases hr : f.write rem with ⟨f1, res⟩
        cases res with
        | error e => simp [fwriteLoopF, h0, hr]
        | ok n =>
            by_cases hb : n = 0
            · simp [fwriteLoopF, h0, hr, hb]
            · have hle := write_length_le f rem f1 n hr
              have hrec := ih f1 (rem - n)
              simp [fwriteLoopF, h0, hr, hb]
              omega

/-- The `fread` loop's result does not depend on the fuel once the fuel is
at least the remaining byte count. -/
theorem freadLoopF_fuel (fuel1 : Nat) : ∀ (fuel2 : Nat) (f : FILE) (rem : Nat),
    rem ≤ fuel1 → rem ≤ fuel2 →
    freadLoopF fuel1 f rem = freadLoopF fuel2 f rem := by
  induction fuel1 with
  | zero =>
      intro fuel2 f rem h1 h2
      have h0 : rem = 0 := by omega
      subst h0
      cases fuel2 <;> simp [freadLoopF]
  | succ fuel ih =>
      intro fuel2 f rem h1 h2
      cases fuel2 with
      | zero =>
          have h0 : rem = 0 := by omega
          subst h0
          simp [freadLoopF]
      | succ fuel2 =>
          by_cases h0 : rem = 0
          · simp [freadLoopF, h0]
          · rcases hr : f.read rem with ⟨f1, res⟩
            cases res with
            | error e => simp [freadLoopF, h0, hr]
            | ok bs =>
                by_cases hb : bs.length = 0
                · simp [freadLoopF, h0, hr, hb]
                · have hle := read_length_le f rem f1 bs hr
                  have heq := ih fuel2 f1 (rem - bs.length) (by omega) (by omega)
                  simp only [freadLoopF, h0, hr, hb]
                  simp only [if_neg h0, if_neg hb, heq]

/-- The `fwrite` loop's result does not depend on the fuel once the fuel is
at least the remaining byte count. -/
theorem fwriteLoopF_fuel (fuel1 : Nat) : ∀ (fuel2 : Nat) (f : FILE) (rem : Nat),
    rem ≤ fuel1 → rem ≤ fuel2 →
    fwriteLoopF fuel1 f rem = fwriteLoopF fuel2 f rem := by
  induction fuel1 with
  | zero =>
      intro fuel2 f rem h1 h2
      have h0 : rem = 0 := by omega
      subst h0
      cases fuel2 <;> simp [fwriteLoopF]
  | succ fuel ih =>
      intro fuel2 f rem h1 h2
      cases fuel2 with
      | zero =>
          have h0 : rem = 0 := by omega
          subst h0
          simp [fwriteLoopF]
      | succ fuel2 =>
          by_cases h0 : rem = 0
          · simp [fwriteLoopF, h0]
          · rcases hr : f.write rem with ⟨f1, res⟩
            cases res with
            | error e => simp [fwriteLoopF, h0, hr]
            | ok n =>
                by_cases hb : n = 0
                · simp [fwriteLoopF, h0, hr, hb]
                · have hle := write_length_le f rem f1 n hr
                  have heq := ih fuel2 f1 (rem - n) (by omega) (by omega)
                  simp only [fwriteLoopF, h0, hr, hb]
                  simp only [if_neg h0, if_neg hb, heq]

/-- Integer division truncates: the quotient times the divisor brackets the
dividend. -/
theorem div_trunc (t size : Nat) (hpos : 0 < size) :
    t / size * size ≤ t ∧ t < (t / size + 1) * size := by
  constructor
  · exact Nat.div_mul_le_self t size
  · have h1 : size * (t / size) + t % size = t := Nat.div_add_mod t size
    have h2 : t % size < size := Nat.mod_lt _ hpos
    calc t = size * (t / size) + t % size := h1.symm
      _ < size * (t / size) + size := by omega
      _ = (t / size + 1) * size := by ring

/-- The stream state after `C7F` has delivered its first three bytes. -/
def C7mid : FILE :=
  {F0 with read_buf := [1, 2, 3], read_pos := 3, read_size := 3,
           handle := {H0 with pos := 3,
                              input := [ReadResult.ok [4], ReadResult.ok []]}}

/-- C7: `fread`/`fwrite` with a zero element size or count return zero
without touching the stream; otherwise the transfer loop continues after a
partial transfer, stops early on a zero result or a failure, and the
return value is `bytes_transferred / size` (truncating a partial trailing
element, so the count times the size brackets the transferred total, which
never exceeds `size * nitems`). -/
theorem block_io_spec (f g : FILE) (size nitems : Nat) :
    (size = 0 ∨ nitems = 0 →
      fread f size nitems = (f, 0) ∧ fwrite g size nitems = (g, 0)) ∧
    (size ≠ 0 → nitems ≠ 0 →
      ((fread f size nitems).2 = (freadTotal f (size * nitems)).2 / size ∧
       (freadTotal f (size * nitems)).2 ≤ size * nitems ∧
       (fread f size nitems).2 * size ≤ (freadTotal f (size * nitems)).2 ∧
       (freadTotal f (size * nitems)).2 < ((fread f size nitems).2 + 1) * size ∧
       (∀ f1 bs, f.read (size * nitems) = (f1, Except.ok bs) → bs ≠ [] →
         (fread f size nitems).2 =
           (bs.length + (freadTotal f1 (size * nitems - bs.length)).2) / size) ∧
       (∀ f1 e, f.read (size * nitems) = (f1, Except.error e) →
         fread f size nitems = (f1, 0)) ∧
       (∀ f1, f.read (size * nitems) = (f1, Except.ok []) →
         fread f size nitems = (f1, 0))) ∧
      ((fwrite g size nitems).2 = (fwriteTotal g (size * nitems)).2 / size ∧
       (fwriteTotal g (size * nitems)).2 ≤ size * nitems ∧
       (fwrite g size nitems).2 * size ≤ (fwriteTotal g (size * nitems)).2 ∧
       (fwriteTotal g (size * nitems)).2 < ((fwrite g size nitems).2 + 1) * size ∧
       (∀ g1 n, g.write (size * nitems) = (g1, Except.ok n) → n ≠ 0 →
         (fwrite g size nitems).2 =
           (n + (fwriteTotal g1 (size * nitems - n)).2) / size) ∧
       (∀ g1 e, g.write (size * nitems) = (g1, Except.error e) →
         fwrite g size nitems = (g1, 0)) ∧
       (∀ g1, g.write (size * nitems) = (g1, Except.ok 0) →
         fwrite g size nitems = (g1, 0)))) := by
  constructor
  · intro hz
    constructor
    · unfold fread
      rw [if_pos hz]
    · unfold fwrite
      rw [if_pos hz]
  · intro hs hn
    have hz : ¬ (size = 0 ∨ nitems = 0) := not_or.mpr ⟨hs, hn⟩
    have hX : size * nitems ≠ 0 := Nat.mul_ne_zero hs hn
    have hfr : fread f size nitems =
        ((freadTotal f (size * nitems)).1, (freadTotal f (size * nitems)).2 / size) := by
      unfold fread
      rw [if_neg hz]
    have hfw : fwrite g size nitems =
        ((fwriteTotal g (size * nitems)).1, (fwriteTotal g (size * nitems)).2 / size) := by
      unfold fwrite
      rw [if_neg hz]
    have hdr := div_trunc ((freadTotal f (size * nitems)).2) size (Nat.pos_of_ne_zero hs)
    have hdw := div_trunc ((fwriteTotal g (size * nitems)).2) size (Nat.pos_of_ne_zero hs)
    obtain ⟨k, hk⟩ : ∃ k, size * nitems = k + 1 :=
      ⟨size * nitems - 1, by omega⟩
    constructor
    · refine ⟨by rw [hfr], freadLoopF_le _ f _, by rw [hfr]; exact hdr.1,
        by rw [hfr]; exact hdr.2, ?_, ?_, ?_⟩
      · intro f1 bs hr hne
        have hb : ¬ bs.length = 0 := by
          cases bs with
          | nil => exact absurd rfl hne
          | cons a t => simp
        have hlen := read_length_le f (size * nitems) f1 bs hr
        rw [hfr]
        have hstep : (freadTotal f (size * nitems)).2 =
            bs.length + (freadTotal f1 (size * nitems - bs.length)).2 := by
          unfold freadTotal
          rw [hk] at hr ⊢
          simp only [freadLoopF, hr, hb]
          simp only [if_neg hb, if_neg (Nat.succ_ne_zero k)]
          rw [freadLoopF_fuel k (k + 1 - bs.length) f1 (k + 1 - bs.length)
            (by omega) (Nat.le_refl _)]
          simp
        rw [hstep]
      · intro f1 e hr
        have hstep : freadTotal f (size * nitems) = (f1, 0) := by
          unfold freadTotal
          rw [hk] at hr ⊢
          simp [freadLoopF, hr]
        rw [hfr, hstep]
        simp
      · intro f1 hr
        have hstep : freadTotal f (size * nitems) = (f1, 0) := by
          unfold freadTotal
          rw [hk] at hr ⊢
          simp [freadLoopF, hr]
        rw [hfr, hstep]
        simp
    · refine ⟨by rw [hfw], fwriteLoopF_le _ g _, by rw [hfw]; exact hdw.1,
        by rw [hfw]; exact hdw.2, ?_, ?_, ?_⟩
      · intro g1 n hr hn2
        have hlen := write_length_le g (size * nitems) g1 n hr
        rw [hfw]
        have hstep : (fwriteTotal g (size * nitems)).2 =
            n + (fwriteTotal g1 (size * nitems - n)).2 := by
          unfold fwriteTotal
          rw [hk] at hr ⊢
          simp only [fwriteLoopF, hr, hn2]
          simp only [if_neg hn2, if_neg (Nat.succ_ne_zero k)]
          rw [fwriteLoopF_fuel k (k + 1 - n) g1 (k + 1 - n)
            (by omega) (Nat.le_refl _)]
          simp
        rw [hstep]
      · intro g1 e hr
        have hstep : fwriteTotal g (size * nitems) = (g1, 0) := by
          unfold fwriteTotal
          rw [hk] at hr ⊢
          simp [fwriteLoopF, hr]
        rw [hfw, hstep]
        simp
      · intro g1 hr
        have hstep : fwriteTotal g (size * nitems) = (g1, 0) := by
          unfold fwriteTotal
          rw [hk] at hr ⊢
          simp [fwriteLoopF, hr]
        rw [hfw, hstep]
        simp

/-- Witness for C7 at concrete streams: zero count short-circuits; with
`size = 2`, `nitems = 3` the read loop transfers 4 bytes (3 then 1, then
end-of-file) and reports 2 complete elements, continuing past the partial
first transfer; the write loop accepts 3 then 1 bytes then fails and also
reports 2. -/
theorem block_io_spec_witness :
    fread C7F 2 0 = (C7F, 0) ∧
    (fread C7F 2 3).2 = (freadTotal C7F 6).2 / 2 ∧
    (fread C7F 2 3).2 = (3 + (freadTotal C7mid 3).2) / 2 ∧
    (fwrite C7G 2 3).2 = (fwriteTotal C7G 6).2 / 2 :=
  ⟨((block_io_spec C7F C7G 2 0).1 (Or.inr rfl)).1,
   ((block_io_spec C7F C7G 2 3).2 (by decide) (by decide)).1.1,
   ((block_io_spec C7F C7G 2 3).2 (by decide) (by decide)).1.2.2.2.2.1
     C7mid [1, 2, 3] rfl (by decide),
   ((block_io_spec C7F C7G 2 3).2 (by decide) (by decide)).2.1⟩

end Relibc
